import Mathlib

/-!
Verification of the document-consistency and asset-lifecycle core of the
ps_netflix_gallery server (Express routes in `src/routes/api.js`, the
S3-backed route variant and server bootstrap in `src/unnamed/part_000`,
and the S3 helper `src/config/s3.js`).

The JSON document, series, episodes and media items are embedded as Lean
structures.  JavaScript `null`/`undefined` string fields become
`Option String`; JS truthiness of strings (empty string is falsy) and of
numbers (`0` is falsy) is modelled explicitly.  Each HTTP handler becomes a
pure function from the loaded document (plus request parameters) to either
an error (the non-200 response it sends) or the new document together with
the list of asset-delete calls it issued, in order.  `deleteFromS3` in
`s3.js` catches every error and returns a boolean, so asset deletion is
modelled by an oracle `String → Bool` giving the outcome of each delete;
the oracle never influences the document result, mirroring the source.
-/

namespace NetflixGallery

/-- Truthiness of a JS string-or-null/undefined value: `null`, `undefined`
and the empty string are falsy, every other string is truthy. -/
def truthy : Option String → Bool
  | some s => s ≠ ""
  | none => false

/-- One uploaded media item, as built by the media-upload handlers
(`api.js` lines 369-378, `part_000` lines 416-426). -/
structure MediaItem where
  id : String
  filename : String
  originalName : String
  type : String
  url : String
deriving DecidableEq

/-- One episode.  `thumbnail`, `music` and `musicOriginalName` are nullable;
episodes freshly created by the code carry `null`/absent values there. -/
structure Episode where
  title : String
  thumbnail : Option String
  music : Option String
  musicOriginalName : Option String
  media : List MediaItem
deriving DecidableEq

/-- One series, as created by `POST /series` and by the legacy migration. -/
structure Series where
  id : String
  title : String
  description : String
  thumbnail : Option String
  createdAt : String
  episodeCount : Int
  episodes : List Episode
deriving DecidableEq

/-- The multi-series document shape `{ series: [...] }`. -/
structure Document where
  series : List Series
deriving DecidableEq

/-- `GET /api/series` returns `data.series` verbatim (`api.js` lines 167-170). -/
def listSeries (doc : Document) : List Series :=
  doc.series

/-- The error responses the route handlers can produce.  `internalError`
stands for an uncaught runtime `TypeError` (Express turns a synchronous
throw into a 500 response; an async throw is an unhandled rejection);
`badRequest` is a 400 other than the invalid-index message. -/
inductive ApiError where
  | notFound
  | invalidIndex
  | badRequest
  | internalError
deriving DecidableEq

/-! ## String helpers for `src/config/s3.js` -/

/-- Character-list test that `pat` is an initial segment of `s`. -/
def startsWithChars : List Char → List Char → Bool
  | [], _ => true
  | _ :: _, [] => false
  | p :: ps, c :: cs => p = c && startsWithChars ps cs

/-- Suffix of `s` after the first occurrence of the (nonempty) pattern
`pat`, or `none` when `pat` does not occur in `s`. -/
def suffixAfterFirst (pat : List Char) : List Char → Option (List Char)
  | [] => none
  | c :: cs =>
    if startsWithChars pat (c :: cs) then some ((c :: cs).drop pat.length)
    else suffixAfterFirst pat cs

/-- `getKeyFromUrl` from `src/config/s3.js` lines 81-96: `null` for a falsy
input; for a string containing both `.s3.` and `.amazonaws.com/` the regex
`\.amazonaws\.com\/(.+)$` captures the (nonempty) remainder after the first
occurrence of `.amazonaws.com/`; every other string (legacy `/uploads/`
paths included) yields `null`. -/
def getKeyFromUrl (url : String) : Option String :=
  if url = "" then none
  else
    let cs := url.toList
    if (suffixAfterFirst ".s3.".toList cs).isSome then
      match suffixAfterFirst ".amazonaws.com/".toList cs with
      | some rest => if rest = [] then none else some (String.mk rest)
      | none => none
    else none

/-- `getS3Url` from `src/config/s3.js` lines 56-58. -/
def getS3Url (bucket region key : String) : String :=
  "https://" ++ bucket ++ ".s3." ++ region ++ ".amazonaws.com/" ++ key

/-! ## JS value helpers -/

/-- JS `s || d` for a possibly-absent string: absent, `null` and `""` fall
back to the default. -/
def strOr (o : Option String) (d : String) : String :=
  match o with
  | some s => if s = "" then d else s
  | none => d

/-- JS `n || d` for a possibly-absent number: absent, `null` and `0` fall
back to the default. -/
def intOr (o : Option Int) (d : Int) : Int :=
  match o with
  | some n => if n = 0 then d else n
  | none => d

/-- JS `Array.prototype.slice(0, n)`: for `n ≥ 0` the first `n` elements,
for `n < 0` everything up to `n` places before the end. -/
def jsSliceTo {α : Type} (l : List α) (n : Int) : List α :=
  if 0 ≤ n then l.take n.toNat else l.take ((l.length : Int) + n).toNat

/-- Result of JS `parseInt` on a route parameter: `none` models `NaN`. -/
abbrev JsIndex := Option Int

/-- The guard `episodeIndex >= series.episodes.length`.  `NaN` compares
false against everything, so a non-numeric index passes the guard. -/
def idxGE (i : JsIndex) (len : Nat) : Bool :=
  match i with
  | some k => (len : Int) ≤ k
  | none => false

/-- JS `l[i]`: `undefined` (`none`) for `NaN`, negative, or out-of-range
indices. -/
def jsIndex {α : Type} (l : List α) (i : JsIndex) : Option α :=
  match i with
  | some k => if 0 ≤ k then l.get? k.toNat else none
  | none => none

/-- In-place update `l[i] = a` for a valid index. -/
def jsSetIndex {α : Type} (l : List α) (i : JsIndex) (a : α) : List α :=
  match i with
  | some k => if 0 ≤ k then l.set k.toNat a else l
  | none => l

/-- JS `Array.prototype.findIndex` followed by access and `splice`:
the element before the first match, the first matching element, and the
elements after it; `none` when no element matches (`findIndex === -1`). -/
def extractFirstCtx {α : Type} (p : α → Bool) : List α → Option (List α × α × List α)
  | [] => none
  | x :: xs =>
    if p x then some ([], x, xs)
    else (extractFirstCtx p xs).map (fun r => (x :: r.1, r.2.1, r.2.2))

/-! ## Series creation and update (`POST /series`, `PUT /series/:seriesId`) -/

/-- A freshly pushed episode object `{title: ` `Episode k` `, thumbnail: null,
media: []}`. -/
def newEpisode (k : Nat) : Episode :=
  ⟨"Episode " ++ toString k, none, none, none, []⟩

/-- The `for (let i = 0; i < count; i++)` initialisation loop of
`POST /series` (`api.js` lines 189-195); zero iterations when the count is
not positive. -/
def mkEpisodes (n : Int) : List Episode :=
  (List.range n.toNat).map (fun i => newEpisode (i + 1))

/-- The series object built by `POST /series` (`api.js` lines 178-195):
defaults applied by `||`, then the episode initialisation loop. -/
def createSeries (uuid now : String) (title description : Option String)
    (episodeCount : Option Int) : Series :=
  let cnt := intOr episodeCount 1
  { id := uuid
    title := strOr title "Untitled Series"
    description := strOr description ""
    thumbnail := none
    createdAt := now
    episodeCount := cnt
    episodes := mkEpisodes cnt }

/-- The request body of `PUT /series/:seriesId`; `none` models an absent
(`undefined`) field. -/
structure UpdateBody where
  title : Option String
  description : Option String
  episodeCount : Option Int
  episodes : Option (List Episode)

/-- The `while (series.episodes.length < episodeCount)` growth loop of
`PUT /series/:seriesId` (`api.js` lines 237-243). -/
def growEpisodes (eps : List Episode) (target : Int) : List Episode :=
  if (eps.length : Int) < target then
    growEpisodes (eps ++ [newEpisode (eps.length + 1)]) target
  else eps
termination_by (target - (eps.length : Int)).toNat
decreasing_by
  simp only [List.length_append, List.length_cons, List.length_nil]
  omega

/-- The body of `PUT /series/:seriesId` (`api.js` lines 227-247): field-wise
replacement of provided attributes, then (only when `episodeCount` is
provided and differs from the stored value) the grow-then-slice
reconciliation. -/
def applyUpdate (body : UpdateBody) (s : Series) : Series :=
  let s1 := match body.title with
    | some t => { s with title := t }
    | none => s
  let s2 := match body.description with
    | some d => { s1 with description := d }
    | none => s1
  let s3 := match body.episodes with
    | some e => { s2 with episodes := e }
    | none => s2
  match body.episodeCount with
  | some n =>
    if n ≠ s3.episodeCount then
      { s3 with episodeCount := n, episodes := jsSliceTo (growEpisodes s3.episodes n) n }
    else s3
  | none => s3

/-! ## Asset collection for series deletion (S3 variant, `part_000` 277-317) -/

/-- The pattern `if (ref) { const key = getKeyFromUrl(ref); if (key) await
deleteFromS3(key) }`: the at-most-one storage key for which a delete call
is issued for a nullable asset reference. -/
def refKeys (r : Option String) : List String :=
  if truthy r then
    match getKeyFromUrl (r.getD "") with
    | some k => [k]
    | none => []
  else []

/-- The storage keys deleted by `DELETE /series/:seriesId` in the S3 route
variant (`part_000` lines 288-307), in source order: series thumbnail, then
per episode its thumbnail, its music, and each media item url. -/
def collectSeriesKeys (s : Series) : List String :=
  refKeys s.thumbnail ++
    (s.episodes.map (fun ep =>
      refKeys ep.thumbnail ++ refKeys ep.music ++
        ep.media.filterMap (fun m => getKeyFromUrl m.url))).flatten

/-- Modelled from the spec wording of claim C1 and spec section 4.2: the
asset references reachable from a series, namely its thumbnail when
non-null, plus each episode thumbnail, each episode music, and each media
item reference.  Used only to compare the code against the claim. -/
def specReachableRefs (s : Series) : List String :=
  (match s.thumbnail with | some t => [t] | none => []) ++
    (s.episodes.map (fun ep =>
      (match ep.thumbnail with | some t => [t] | none => []) ++
        (match ep.music with | some m => [m] | none => []) ++
        ep.media.map (fun m => m.url))).flatten

/-- `DELETE /series/:seriesId` in the S3 route variant (`part_000` lines
277-317): find the series, issue a delete for each resolvable key (each
outcome given by `oracle`, every outcome ignored), then splice the series
out and save. -/
def deleteSeriesS3Route (oracle : String → Bool) (doc : Document) (sid : String) :
    Except ApiError (Document × List (String × Bool)) :=
  match extractFirstCtx (fun s => s.id == sid) doc.series with
  | none => .error .notFound
  | some (pre, s, post) =>
    .ok (⟨pre ++ post⟩, (collectSeriesKeys s).map (fun k => (k, oracle k)))

/-- `DELETE /series/:seriesId` in the local-disk routes (`api.js` lines
258-276): the series is spliced out and saved, and no asset delete of any
kind is issued (the handler carries only a TODO comment about it). -/
def deleteSeriesLocalRoute (doc : Document) (sid : String) :
    Except ApiError (Document × List (String × Bool)) :=
  match extractFirstCtx (fun s => s.id == sid) doc.series with
  | none => .error .notFound
  | some (pre, _, post) => .ok (⟨pre ++ post⟩, [])

/-! ## Generic route plumbing shared by the episode-scoped handlers -/

/-- `data.series.find(s => s.id === seriesId)` followed by mutating the
found series in place and saving: 404 when absent. -/
def mutateSeries (doc : Document) (sid : String)
    (f : Series → Except ApiError (Series × List (String × Bool))) :
    Except ApiError (Document × List (String × Bool)) :=
  match extractFirstCtx (fun s => s.id == sid) doc.series with
  | none => .error .notFound
  | some (pre, s, post) =>
    match f s with
    | .error e => .error e
    | .ok (s2, ds) => .ok (⟨pre ++ s2 :: post⟩, ds)

/-- The shared episode-indexing prologue of every index-taking handler:
the guard `episodeIndex >= series.episodes.length` answers 400; past the
guard, `series.episodes[episodeIndex]` is `undefined` for a negative or
non-numeric index and the following property access throws (500). -/
def mutateEpisode (s : Series) (idx : JsIndex)
    (f : Episode → Except ApiError (Episode × List (String × Bool))) :
    Except ApiError (Series × List (String × Bool)) :=
  if idxGE idx s.episodes.length then .error .invalidIndex
  else
    match jsIndex s.episodes idx with
    | none => .error .internalError
    | some ep =>
      match f ep with
      | .error e => .error e
      | .ok (ep2, ds) => .ok ({ s with episodes := jsSetIndex s.episodes idx ep2 }, ds)

/-! ## Episode-scoped handlers (S3 variants; the local variants have the
same control flow with disk unlinks in place of S3 deletes) -/

/-- `DELETE /series/:seriesId/music/:episodeIndex` (`part_000` lines
484-509): when music is set, delete its resolvable key and clear both
fields; otherwise succeed without change. -/
def deleteMusicRoute (oracle : String → Bool) (doc : Document) (sid : String)
    (idx : JsIndex) : Except ApiError (Document × List (String × Bool)) :=
  mutateSeries doc sid (fun s => mutateEpisode s idx (fun ep =>
    if truthy ep.music then
      .ok ({ ep with music := none, musicOriginalName := none },
        (refKeys ep.music).map (fun k => (k, oracle k)))
    else .ok (ep, [])))

/-- `DELETE /series/:seriesId/media/:episodeIndex/:mediaId` (`part_000`
lines 512-544): 404 when the media id is absent; otherwise delete the
resolvable key of the media url and splice the item out. -/
def deleteMediaRoute (oracle : String → Bool) (doc : Document) (sid : String)
    (idx : JsIndex) (mediaId : String) :
    Except ApiError (Document × List (String × Bool)) :=
  mutateSeries doc sid (fun s => mutateEpisode s idx (fun ep =>
    match extractFirstCtx (fun m => m.id == mediaId) ep.media with
    | none => .error .notFound
    | some (pre, m, post) =>
      .ok ({ ep with media := pre ++ post },
        (match getKeyFromUrl m.url with | some k => [k] | none => []).map
          (fun k => (k, oracle k)))))

/-- `POST /series/:seriesId/upload/thumbnail/:episodeIndex` (`part_000`
lines 358-395) with a file present: delete the resolvable key of the old
thumbnail, then store the new S3 url. -/
def epThumbRoute (oracle : String → Bool) (bucket region : String)
    (doc : Document) (sid : String) (idx : JsIndex) (fileKey : String) :
    Except ApiError (Document × List (String × Bool)) :=
  mutateSeries doc sid (fun s => mutateEpisode s idx (fun ep =>
    .ok ({ ep with thumbnail := some (getS3Url bucket region fileKey) },
      (refKeys ep.thumbnail).map (fun k => (k, oracle k)))))

/-- `POST /series/:seriesId/upload/music/:episodeIndex` (`part_000` lines
441-481) with a file present: delete the resolvable key of the old music,
then store the new S3 url and the original name. -/
def musicUploadRoute (oracle : String → Bool) (bucket region : String)
    (doc : Document) (sid : String) (idx : JsIndex)
    (fileKey origName : String) :
    Except ApiError (Document × List (String × Bool)) :=
  mutateSeries doc sid (fun s => mutateEpisode s idx (fun ep =>
    .ok ({ ep with
            music := some (getS3Url bucket region fileKey),
            musicOriginalName := some origName },
      (refKeys ep.music).map (fun k => (k, oracle k)))))

/-- `path.extname` restricted to plain file names: the suffix from the last
dot at a position after the first character, else the empty string. -/
def extnameAux : List Char → Option (List Char)
  | [] => none
  | c :: cs =>
    match extnameAux cs with
    | some r => some r
    | none => if c = '.' then some (c :: cs) else none

/-- `path.extname(file.originalname)`. -/
def extname (s : String) : String :=
  match s.toList with
  | [] => ""
  | _ :: cs =>
    match extnameAux cs with
    | some r => String.mk r
    | none => ""

/-- The regex test `/mp4|webm|mov|avi|mkv/.test(ext.toLowerCase())`: a
substring search for any alternative. -/
def isVideoName (origName : String) : Bool :=
  let e := (extname origName).toList.map Char.toLower
  (suffixAfterFirst "mp4".toList e).isSome ||
    (suffixAfterFirst "webm".toList e).isSome ||
    (suffixAfterFirst "mov".toList e).isSome ||
    (suffixAfterFirst "avi".toList e).isSome ||
    (suffixAfterFirst "mkv".toList e).isSome

/-- One entry of `req.files` together with the uuid the handler draws for
it: the S3 object key, the client file name, and the fresh media id. -/
structure UploadFile where
  id : String
  key : String
  originalName : String

/-- The `req.files.map(...)` media constructor (`part_000` lines 416-426). -/
def mkMediaItem (bucket region : String) (f : UploadFile) : MediaItem :=
  { id := f.id
    filename := f.key
    originalName := f.originalName
    type := if isVideoName f.originalName then "video" else "image"
    url := getS3Url bucket region f.key }

/-- `POST /series/:seriesId/upload/media/:episodeIndex` (`part_000` lines
398-438): 400 when no files were uploaded, then the usual lookup and index
guard, then append one media item per file; no asset delete is issued. -/
def mediaUploadRoute (bucket region : String) (doc : Document) (sid : String)
    (idx : JsIndex) (files : List UploadFile) :
    Except ApiError (Document × List (String × Bool)) :=
  if files.isEmpty then .error .badRequest
  else
    mutateSeries doc sid (fun s => mutateEpisode s idx (fun ep =>
      .ok ({ ep with media := ep.media ++ files.map (mkMediaItem bucket region) }, [])))

/-! ## Media reordering (`POST .../media/:episodeIndex/reorder`) -/

/-- The JS `Map` built by `episode.media.forEach(m => mediaMap.set(m.id, m))`
as an id-keyed association list: keys ordered by first insertion, and a
repeated key keeps its position while taking the latest value. -/
def buildMap (media : List MediaItem) : List MediaItem :=
  media.foldl
    (fun acc m =>
      if acc.any (fun x => x.id == m.id) then
        acc.map (fun x => if x.id == m.id then m else x)
      else acc ++ [m])
    []

/-- The reorder loop (`api.js` lines 522-531): for each requested id, move
the matching map entry (if any) to the output and delete it from the map;
the output list and the remaining map entries in order. -/
def pickIds : List String → List MediaItem → List MediaItem × List MediaItem
  | [], rem => ([], rem)
  | i :: is, rem =>
    match rem.find? (fun m => m.id == i) with
    | some m =>
      let r := pickIds is (rem.filter (fun x => !(x.id == i)))
      (m :: r.1, r.2)
    | none => pickIds is rem

/-- The new media sequence computed by the reorder handlers (`api.js` lines
517-533, `part_000` lines 568-584): picked entries in request order, then
every remaining map entry appended in original order. -/
def reorderMedia (media : List MediaItem) (ids : List String) : List MediaItem :=
  let r := pickIds ids (buildMap media)
  r.1 ++ r.2

/-- `POST /series/:seriesId/media/:episodeIndex/reorder` (`api.js` lines
496-537): after the array check, lookup and index guard, replace the media
array by the reordered sequence; no asset operation is issued. -/
def reorderRoute (doc : Document) (sid : String) (idx : JsIndex)
    (mediaIds : List String) : Except ApiError (Document × List (String × Bool)) :=
  mutateSeries doc sid (fun s => mutateEpisode s idx (fun ep =>
    .ok ({ ep with media := reorderMedia ep.media mediaIds }, [])))

/-! ## Loading and legacy migration (`getData`, `api.js` lines 123-149) -/

/-- A successfully parsed JSON document: the attributes `getData` inspects,
each possibly absent. -/
structure RawDoc where
  series : Option (List Series)
  showTitle : Option String
  episodeCount : Option Int
  episodes : Option (List Episode)
deriving DecidableEq

/-- The state of the persisted `showData.json` file. -/
inductive PersistedState where
  | missing
  | unparsable
  | parsed (raw : RawDoc)
deriving DecidableEq

/-- The single series synthesized by the legacy migration (`api.js` lines
130-140): fresh id, legacy title, fixed description, `episodeCount || 1`,
`episodes || []`. -/
def migrateSeries (uuid now : String) (raw : RawDoc) : Series :=
  { id := uuid
    title := raw.showTitle.getD ""
    description := "A personal documentary"
    thumbnail := none
    createdAt := now
    episodeCount := intOr raw.episodeCount 1
    episodes := raw.episodes.getD [] }

/-- `getData` (`api.js` lines 123-149): a missing or unparsable file yields
`{series: []}` via the catch; a parsed document with a falsy `series` and
a truthy `showTitle` is migrated and immediately persisted; every other
parsed document is returned unchanged.  The second component is the
persisted state after the call. -/
def getData (uuid now : String) : PersistedState → RawDoc × PersistedState
  | .missing => (⟨some [], none, none, none⟩, .missing)
  | .unparsable => (⟨some [], none, none, none⟩, .unparsable)
  | .parsed raw =>
    if raw.series.isNone ∧ truthy raw.showTitle then
      let migrated : RawDoc := ⟨some [migrateSeries uuid now raw], none, none, none⟩
      (migrated, .parsed migrated)
    else (raw, .parsed raw)

/-- `PUT /series/:seriesId` as a whole-document operation: find, update in
place, save; no asset delete is issued. -/
def updateSeriesRoute (doc : Document) (sid : String) (body : UpdateBody) :
    Except ApiError (Document × List (String × Bool)) :=
  mutateSeries doc sid (fun s => .ok (applyUpdate body s, []))

/-- `POST /series` as a whole-document operation: append the new series. -/
def createSeriesRoute (uuid now : String) (doc : Document)
    (title description : Option String) (episodeCount : Option Int) :
    Except ApiError (Document × List (String × Bool)) :=
  .ok (⟨doc.series ++ [createSeries uuid now title description episodeCount]⟩, [])

end NetflixGallery

namespace NetflixGallery

/-! ## Concrete fixtures used by witnesses and counterexamples -/

/-- A well-formed series with two episodes and matching count. -/
def exSeries2 : Series :=
  ⟨"s1", "T", "", none, "t0", 2, [newEpisode 1, newEpisode 2]⟩

/-- A series whose episode count and episode array disagree, exactly as
produced by a `PUT /series/:seriesId` that supplies only `episodes`. -/
def exSeriesBroken : Series :=
  ⟨"s1", "T", "", none, "t0", 2, [newEpisode 1]⟩

/-- A series whose assets are a mix of S3 urls and legacy local paths. -/
def exS3Series : Series :=
  ⟨"s1", "Trip", "", some "https://b.s3.r.amazonaws.com/series-thumbnails/t.png", "t0", 1,
    [⟨"Episode 1", some "/uploads/thumbnails/old.png",
      some "https://b.s3.r.amazonaws.com/music/m.mp3", some "m.mp3",
      [⟨"x", "media/x.png", "x.png", "image", "https://b.s3.r.amazonaws.com/media/x.png"⟩]⟩]⟩

/-- A document holding only `exS3Series`. -/
def exDocS3 : Document := ⟨[exS3Series]⟩

/-- A series whose only asset reference is a legacy local path. -/
def exLocalThumbSeries : Series :=
  ⟨"s1", "T", "", some "/uploads/series-thumbnails/a.png", "t0", 1, [newEpisode 1]⟩

/-- A document holding only `exLocalThumbSeries`. -/
def exDocLocalThumb : Document := ⟨[exLocalThumbSeries]⟩

/-- A one-episode series for exercising the index guards. -/
def exSeries9 : Series :=
  ⟨"s1", "T", "", none, "t0", 1,
    [⟨"Episode 1", none, some "https://b.s3.r.amazonaws.com/music/m.mp3", some "m.mp3", []⟩]⟩

/-- A one-series one-episode document for exercising the index guards. -/
def exDoc9 : Document := ⟨[exSeries9]⟩

/-- A media item whose id, keys and url all equal the given tag. -/
def mitem (i : String) : MediaItem := ⟨i, i, i, "image", i⟩

/-- A legacy document whose `episodeCount` is present but zero. -/
def exLegacyZero : RawDoc := ⟨none, some "X", some 0, none⟩

/-- A well-behaved legacy document. -/
def exLegacy : RawDoc := ⟨none, some "X", some 2, some [newEpisode 1, newEpisode 2]⟩

/-- A legacy document whose episode array length disagrees with its count. -/
def exLegacyMismatch : RawDoc := ⟨none, some "X", some 2, some []⟩

/-- The parsed empty JSON object: neither `series` nor `showTitle`. -/
def exEmptyRaw : RawDoc := ⟨none, none, none, none⟩

/-! ## Characterisation of the grow-then-slice reconciliation -/

/-- Unfolding of the `while` growth loop: for a non-negative target it
appends exactly the missing episodes, titled from the current length
upward. -/
theorem growEpisodes_spec (eps : List Episode) (target : Int) (h : 0 ≤ target) :
    growEpisodes eps target =
      eps ++ (List.range (target.toNat - eps.length)).map
        (fun j => newEpisode (eps.length + j + 1)) := by
  by_cases hlt : (eps.length : Int) < target
  · rw [growEpisodes, if_pos hlt,
      growEpisodes_spec (eps ++ [newEpisode (eps.length + 1)]) target h]
    simp only [List.length_append, List.length_cons, List.length_nil, Nat.zero_add]
    rw [List.append_assoc]
    congr 1
    have hk : target.toNat - eps.length = (target.toNat - (eps.length + 1)) + 1 := by omega
    rw [hk, List.range_succ_eq_map, List.map_cons, List.map_map, List.singleton_append]
    exact congrArg₂ List.cons (by simp) (List.map_congr_left fun j _ => by
      simp only [Function.comp_apply]
      congr 1
      omega)
  · rw [growEpisodes, if_neg hlt]
    have hz : target.toNat - eps.length = 0 := by omega
    simp [hz]
termination_by (target - (eps.length : Int)).toNat
decreasing_by
  simp only [List.length_append, List.length_cons, List.length_nil]
  omega

/-- The grow-then-slice reconciliation applied to `eps` with target `n`
yields exactly `n` episodes, keeps the first `min n eps.length` unchanged,
and titles the appended ones `Episode (eps.length + 1) .. Episode n`. -/
theorem reconcile_spec (eps : List Episode) (n : Nat) :
    (jsSliceTo (growEpisodes eps (n : Int)) (n : Int)).length = n ∧
    (jsSliceTo (growEpisodes eps (n : Int)) (n : Int)).take (min n eps.length) =
      eps.take (min n eps.length) ∧
    ((jsSliceTo (growEpisodes eps (n : Int)) (n : Int)).drop eps.length).map Episode.title =
      (List.range (n - eps.length)).map
        (fun j => "Episode " ++ toString (eps.length + j + 1)) := by
  have hg := growEpisodes_spec eps (n : Int) (by omega)
  rw [hg]
  unfold jsSliceTo
  rw [if_pos (by omega : (0 : Int) ≤ (n : Int))]
  simp only [Int.toNat_ofNat]
  have hlenp : ((List.range (n - eps.length)).map
      (fun j => newEpisode (eps.length + j + 1))).length = n - eps.length := by
    simp
  refine ⟨?_, ?_, ?_⟩
  · rw [List.length_take, List.length_append, hlenp]
    omega
  · rw [List.take_take]
    have hmin : min (min n eps.length) n = min n eps.length := by omega
    rw [hmin]
    exact List.take_append_of_le_length (by omega)
  · by_cases hle : n ≤ eps.length
    · rw [List.take_append_of_le_length (by omega)]
      rw [List.drop_eq_nil_of_le (by rw [List.length_take]; omega)]
      have hz : n - eps.length = 0 := by omega
      simp [hz]
    · have hlen : (eps ++ (List.range (n - eps.length)).map
          (fun j => newEpisode (eps.length + j + 1))).length = n := by
        simp only [List.length_append, hlenp]
        omega
      rw [List.take_of_length_le (le_of_eq hlen), List.drop_left, List.map_map]
      refine List.map_congr_left ?_
      intro j _
      rfl

end NetflixGallery

namespace NetflixGallery

/-! ## Shape lemmas for `applyUpdate` -/

/-- When `episodeCount` is supplied and differs from the stored value, the
update replaces each provided field and reconciles the (possibly replaced)
episode array by grow-then-slice. -/
theorem applyUpdate_some_count (s : Series) (title desc : Option String)
    (E : Option (List Episode)) (n : Int) (hn : n ≠ s.episodeCount) :
    applyUpdate ⟨title, desc, some n, E⟩ s =
      { s with
        title := title.getD s.title
        description := desc.getD s.description
        episodeCount := n
        episodes := jsSliceTo (growEpisodes (E.getD s.episodes) n) n } := by
  cases title <;> cases desc <;> cases E <;> simp [applyUpdate, hn]

/-- When the supplied `episodeCount` equals the stored value, no
reconciliation happens: a replaced episode array is kept as given. -/
theorem applyUpdate_same_count (s : Series) (title desc : Option String)
    (E : Option (List Episode)) (n : Int) (hn : n = s.episodeCount) :
    applyUpdate ⟨title, desc, some n, E⟩ s =
      { s with
        title := title.getD s.title
        description := desc.getD s.description
        episodes := E.getD s.episodes } := by
  cases title <;> cases desc <;> cases E <;> simp [applyUpdate, hn]

/-! ## Claim C2 -/

/-- C2 (amended): `episodes.length == episodeCount` holds after
`createSeries` whenever the requested count is not negative, and after an
`updateSeries` that supplies a NON-NEGATIVE `episodeCount` differing from
the stored value (whatever other fields it supplies); the invariant is NOT
maintained by an update that supplies only an `episodes` array of a
different length, nor by an update supplying a negative `episodeCount`
(the unvalidated count is stored while `slice(0, n)` truncates from the
end), nor by the legacy migration — see the counterexample. -/
theorem episodeCount_invariant_amended :
    (∀ (uuid now : String) (title desc : Option String) (req : Option Int),
        (∀ k, req = some k → 0 ≤ k) →
        ((createSeries uuid now title desc req).episodes.length : Int) =
          (createSeries uuid now title desc req).episodeCount) ∧
    (∀ (s : Series) (title desc : Option String) (E : Option (List Episode)) (n : Nat),
        (n : Int) ≠ s.episodeCount →
        ((applyUpdate ⟨title, desc, some (n : Int), E⟩ s).episodes.length : Int) =
          (applyUpdate ⟨title, desc, some (n : Int), E⟩ s).episodeCount) := by
  constructor
  · intro uuid now title desc req hreq
    have hc : 0 ≤ intOr req 1 := by
      cases req with
      | none => simp [intOr]
      | some k =>
        have := hreq k rfl
        by_cases hk : k = 0
        · simp [intOr, hk]
        · simp [intOr, hk]; omega
    simp only [createSeries, mkEpisodes, List.length_map, List.length_range]
    omega
  · intro s title desc E n hn
    rw [applyUpdate_some_count s title desc E (n : Int) hn]
    have h := (reconcile_spec (E.getD s.episodes) n).1
    simp only at h ⊢
    omega

/-- Witness for C2 at concrete inputs: a creation with requested count 3
and an update of `exSeries2` to count 3. -/
theorem episodeCount_invariant_amended_witness :
    ((createSeries "u" "t0" none none (some 3)).episodes.length : Int) =
      (createSeries "u" "t0" none none (some 3)).episodeCount ∧
    ((applyUpdate ⟨none, none, some ((3 : Nat) : Int), none⟩ exSeries2).episodes.length : Int) =
      (applyUpdate ⟨none, none, some ((3 : Nat) : Int), none⟩ exSeries2).episodeCount := by
  constructor
  · exact episodeCount_invariant_amended.1 "u" "t0" none none (some 3)
      (by intro k hk; injection hk with h; omega)
  · exact episodeCount_invariant_amended.2 exSeries2 none none none 3 (by decide)

/-- Counterexample to C2 as stated: an update of `exSeries2` that supplies
only a one-element `episodes` array leaves `episodeCount = 2` with a single
episode; an update supplying the (unvalidated) `episodeCount` of `-1`
stores the negative count while `slice(0, -1)` leaves one episode; and
migrating a legacy document whose `episodes` array is empty while its
`episodeCount` is 2 produces the same mismatch. -/
theorem episodeCount_invariant_counterexample :
    (applyUpdate ⟨none, none, none, some [newEpisode 1]⟩ exSeries2).episodeCount = 2 ∧
    (applyUpdate ⟨none, none, none, some [newEpisode 1]⟩ exSeries2).episodes.length = 1 ∧
    (((applyUpdate ⟨none, none, none, some [newEpisode 1]⟩ exSeries2).episodes.length : Int) ≠
      (applyUpdate ⟨none, none, none, some [newEpisode 1]⟩ exSeries2).episodeCount) ∧
    (applyUpdate ⟨none, none, some (-1), none⟩ exSeries2).episodeCount = -1 ∧
    (applyUpdate ⟨none, none, some (-1), none⟩ exSeries2).episodes.length = 1 ∧
    (((applyUpdate ⟨none, none, some (-1), none⟩ exSeries2).episodes.length : Int) ≠
      (applyUpdate ⟨none, none, some (-1), none⟩ exSeries2).episodeCount) ∧
    (getData "u" "t0" (.parsed exLegacyMismatch)).1.series =
      some [migrateSeries "u" "t0" exLegacyMismatch] ∧
    (migrateSeries "u" "t0" exLegacyMismatch).episodeCount = 2 ∧
    (migrateSeries "u" "t0" exLegacyMismatch).episodes = [] := by
  have hA : applyUpdate ⟨none, none, some (-1), none⟩ exSeries2 =
      { exSeries2 with
        episodeCount := (-1 : Int)
        episodes := jsSliceTo (growEpisodes exSeries2.episodes (-1)) (-1) } := by
    rw [applyUpdate_some_count exSeries2 none none none (-1) (by decide)]
    rfl
  have hG : growEpisodes exSeries2.episodes (-1) = exSeries2.episodes := by
    rw [growEpisodes, if_neg (by decide)]
  have hep : (applyUpdate ⟨none, none, some (-1), none⟩ exSeries2).episodes =
      [newEpisode 1] := by
    rw [hA, hG]
    rfl
  have hcnt : (applyUpdate ⟨none, none, some (-1), none⟩ exSeries2).episodeCount = -1 := by
    rw [hA]
  refine ⟨rfl, rfl, by decide, hcnt, ?_, ?_, ?_, rfl, rfl⟩
  · rw [hep]
    rfl
  · rw [hep, hcnt]
    decide
  · rfl

/-! ## Claim C3 -/

/-- C3 (amended with the precondition that the series satisfies the
data-model invariant `episodes.length == episodeCount`): updating
`episodeCount` to `n` yields exactly `n` episodes, preserves the first
`min n (old length)` unchanged, and titles the appended ones
`Episode (old length + 1) .. Episode n`; when an `episodes` replacement `E`
is supplied together with an `episodeCount` that differs from the stored
one, reconciliation applies after the replacement, padding from the end of
`E`. -/
theorem updateSeries_reconciliation (s : Series) (n m : Nat) (E : List Episode)
    (hinv : (s.episodes.length : Int) = s.episodeCount)
    (hm : (m : Int) ≠ s.episodeCount) :
    (applyUpdate ⟨none, none, some (n : Int), none⟩ s).episodeCount = (n : Int) ∧
    (applyUpdate ⟨none, none, some (n : Int), none⟩ s).episodes.length = n ∧
    (applyUpdate ⟨none, none, some (n : Int), none⟩ s).episodes.take (min n s.episodes.length) =
      s.episodes.take (min n s.episodes.length) ∧
    ((applyUpdate ⟨none, none, some (n : Int), none⟩ s).episodes.drop s.episodes.length).map
        Episode.title =
      (List.range (n - s.episodes.length)).map
        (fun j => "Episode " ++ toString (s.episodes.length + j + 1)) ∧
    (applyUpdate ⟨none, none, some (m : Int), some E⟩ s).episodes.length = m ∧
    (applyUpdate ⟨none, none, some (m : Int), some E⟩ s).episodes.take (min m E.length) =
      E.take (min m E.length) ∧
    ((applyUpdate ⟨none, none, some (m : Int), some E⟩ s).episodes.drop E.length).map
        Episode.title =
      (List.range (m - E.length)).map
        (fun j => "Episode " ++ toString (E.length + j + 1)) := by
  have h2 := reconcile_spec E m
  have hB : applyUpdate ⟨none, none, some (m : Int), some E⟩ s =
      { s with episodeCount := (m : Int),
               episodes := jsSliceTo (growEpisodes E (m : Int)) (m : Int) } := by
    rw [applyUpdate_some_count s none none (some E) (m : Int) hm]
    rfl
  by_cases hn : (n : Int) = s.episodeCount
  · have hA : applyUpdate ⟨none, none, some (n : Int), none⟩ s = s := by
      rw [applyUpdate_same_count s none none none (n : Int) hn]
      rfl
    have hlen : s.episodes.length = n := by omega
    refine ⟨?_, ?_, ?_, ?_, ?_, ?_, ?_⟩
    · rw [hA]; exact hn.symm
    · rw [hA]; exact hlen
    · rw [hA]
    · rw [hA]
      have hz : n - s.episodes.length = 0 := by omega
      rw [List.drop_length, hz]
      simp
    · rw [hB]; exact h2.1
    · rw [hB]; exact h2.2.1
    · rw [hB]; exact h2.2.2
  · have h1 := reconcile_spec s.episodes n
    have hA : applyUpdate ⟨none, none, some (n : Int), none⟩ s =
        { s with episodeCount := (n : Int),
                 episodes := jsSliceTo (growEpisodes s.episodes (n : Int)) (n : Int) } := by
      rw [applyUpdate_some_count s none none none (n : Int) hn]
      rfl
    refine ⟨?_, ?_, ?_, ?_, ?_, ?_, ?_⟩
    · rw [hA]
    · rw [hA]; exact h1.1
    · rw [hA]; exact h1.2.1
    · rw [hA]; exact h1.2.2
    · rw [hB]; exact h2.1
    · rw [hB]; exact h2.2.1
    · rw [hB]; exact h2.2.2

/-- Witness for C3 at concrete inputs: `exSeries2` grown to 3 episodes and
simultaneously replaced-then-grown from a one-element array to 3. -/
theorem updateSeries_reconciliation_witness :
    (applyUpdate ⟨none, none, some ((3 : Nat) : Int), none⟩ exSeries2).episodes.length = 3 ∧
    ((applyUpdate ⟨none, none, some ((3 : Nat) : Int), some [newEpisode 9]⟩
        exSeries2).episodes.drop 1).map Episode.title =
      (List.range 2).map (fun j => "Episode " ++ toString (1 + j + 1)) := by
  have h := updateSeries_reconciliation exSeries2 3 3 [newEpisode 9] (by decide) (by decide)
  exact ⟨h.2.1, h.2.2.2.2.2.2⟩

/-- Counterexample to C3 as stated: on a (reachable) series whose stored
count 2 disagrees with its single episode, updating `episodeCount` to 2
does not reconcile — the episode array keeps length 1, not 2. -/
theorem updateSeries_reconciliation_counterexample :
    (applyUpdate ⟨none, none, some (2 : Int), none⟩ exSeriesBroken).episodes.length = 1 ∧
    (applyUpdate ⟨none, none, some (2 : Int), none⟩ exSeriesBroken).episodes.length ≠ 2 := by
  exact ⟨rfl, by decide⟩

end NetflixGallery

namespace NetflixGallery

/-! ## Claim C7 -/

/-- C7: `getData` is a total function of the persisted state — the
`try/catch` turns a missing file and an unparsable file alike into the
document `{series: []}`, and nothing is written in either case. -/
theorem load_fails_soft (uuid now : String) :
    getData uuid now .missing = (⟨some [], none, none, none⟩, .missing) ∧
    getData uuid now .unparsable = (⟨some [], none, none, none⟩, .unparsable) :=
  ⟨rfl, rfl⟩

/-! ## Claim C10 -/

/-- C10: a requested `episodeCount` of 0 is falsy, so `episodeCount || 1`
treats it exactly like an omitted count: the created series has
`episodeCount = 1` and exactly one episode titled `Episode 1`. -/
theorem createSeries_zero_like_absent (uuid now : String)
    (title desc : Option String) :
    createSeries uuid now title desc (some 0) = createSeries uuid now title desc none ∧
    (createSeries uuid now title desc (some 0)).episodeCount = 1 ∧
    (createSeries uuid now title desc (some 0)).episodes.map Episode.title = ["Episode 1"] := by
  refine ⟨rfl, rfl, ?_⟩
  rfl

/-! ## Claim C6 -/

/-- C6 (amended): migration fires only for a truthy (nonempty) legacy
`showTitle`; the synthesized single series copies the title, fixes the
description, copies `episodeCount` only when it is present and nonzero
(absent, `null` and `0` all become 1) and copies `episodes` only when
present (absent and `null` become `[]`); the migrated document is persisted
at once, and a second load of the persisted state returns the identical
structure without creating a second series. -/
theorem legacy_migration_amended (uuid now : String) (raw : RawDoc) (t : String)
    (hser : raw.series = none) (ht : raw.showTitle = some t) (hne : t ≠ "") :
    (getData uuid now (.parsed raw)).1.series = some [migrateSeries uuid now raw] ∧
    (migrateSeries uuid now raw).id = uuid ∧
    (migrateSeries uuid now raw).title = t ∧
    (migrateSeries uuid now raw).description = "A personal documentary" ∧
    (migrateSeries uuid now raw).createdAt = now ∧
    (migrateSeries uuid now raw).thumbnail = none ∧
    (∀ c : Int, raw.episodeCount = some c → c ≠ 0 →
        (migrateSeries uuid now raw).episodeCount = c) ∧
    (raw.episodeCount = none → (migrateSeries uuid now raw).episodeCount = 1) ∧
    (raw.episodeCount = some 0 → (migrateSeries uuid now raw).episodeCount = 1) ∧
    (∀ l, raw.episodes = some l → (migrateSeries uuid now raw).episodes = l) ∧
    (raw.episodes = none → (migrateSeries uuid now raw).episodes = []) ∧
    (getData uuid now (.parsed raw)).2 = .parsed (getData uuid now (.parsed raw)).1 ∧
    (∀ u2 n2 : String,
        getData u2 n2 (getData uuid now (.parsed raw)).2 =
          ((getData uuid now (.parsed raw)).1, (getData uuid now (.parsed raw)).2)) := by
  have hcond : raw.series.isNone = true ∧ truthy raw.showTitle = true := by
    rw [hser, ht]
    exact ⟨rfl, by simp [truthy, hne]⟩
  have hload : getData uuid now (.parsed raw) =
      (⟨some [migrateSeries uuid now raw], none, none, none⟩,
        .parsed ⟨some [migrateSeries uuid now raw], none, none, none⟩) := by
    simp only [getData]
    rw [if_pos hcond]
  rw [hload]
  refine ⟨rfl, rfl, ?_, rfl, rfl, rfl, ?_, ?_, ?_, ?_, ?_, rfl, ?_⟩
  · simp [migrateSeries, ht]
  · intro c hc hc0
    simp [migrateSeries, hc, intOr, hc0]
  · intro hc
    simp [migrateSeries, hc, intOr]
  · intro hc
    simp [migrateSeries, hc, intOr]
  · intro l hl
    simp [migrateSeries, hl]
  · intro hl
    simp [migrateSeries, hl]
  · intro u2 n2
    simp [getData]

/-- Witness for C6: the legacy document `exLegacy` is migrated to a single
series titled `X`. -/
theorem legacy_migration_amended_witness :
    (getData "u" "t0" (.parsed exLegacy)).1.series =
      some [migrateSeries "u" "t0" exLegacy] ∧
    (migrateSeries "u" "t0" exLegacy).title = "X" := by
  have h := legacy_migration_amended "u" "t0" exLegacy "X" rfl rfl (by decide)
  exact ⟨h.1, h.2.2.1⟩

/-- Counterexample to C6 as stated: the legacy document `exLegacyZero`
carries `episodeCount: 0`, yet the migrated series has `episodeCount = 1` —
a present legacy count of 0 is not copied. -/
theorem legacy_migration_counterexample :
    (getData "u" "t0" (.parsed exLegacyZero)).1.series =
      some [migrateSeries "u" "t0" exLegacyZero] ∧
    exLegacyZero.episodeCount = some 0 ∧
    (migrateSeries "u" "t0" exLegacyZero).episodeCount = 1 ∧
    (migrateSeries "u" "t0" exLegacyZero).episodeCount ≠ 0 := by
  exact ⟨rfl, rfl, rfl, by decide⟩

/-! ## Claim C8 -/

/-- C8 (amended): after a load the `series` attribute is present when the
file was missing or unparsable, and when the parsed document has a `series`
attribute or a truthy `showTitle`; a parsed document with neither — for
example `{}` — is returned unchanged with `series` absent, refuting the
claim as stated. -/
theorem load_series_present_amended :
    (∀ uuid now : String,
        ((getData uuid now .missing).1.series).isSome = true ∧
        ((getData uuid now .unparsable).1.series).isSome = true) ∧
    (∀ (uuid now : String) (raw : RawDoc),
        raw.series.isSome = true ∨ truthy raw.showTitle = true →
        ((getData uuid now (.parsed raw)).1.series).isSome = true) := by
  refine ⟨fun uuid now => ⟨rfl, rfl⟩, ?_⟩
  intro uuid now raw h
  cases hser : raw.series with
  | some l =>
    simp [getData, hser]
  | none =>
    have ht : truthy raw.showTitle = true := by
      rcases h with h | h
      · rw [hser] at h; simp at h
      · exact h
    simp [getData, hser, ht]

/-- Witness for C8: a parsed legacy document with a truthy `showTitle`
loads with `series` present. -/
theorem load_series_present_amended_witness :
    ((getData "u" "t0" (.parsed exLegacy)).1.series).isSome = true :=
  load_series_present_amended.2 "u" "t0" exLegacy (Or.inr (by decide))

/-- Counterexample to C8 as stated: loading the successfully parsed empty
object `{}` returns it unchanged, with no `series` attribute. -/
theorem load_series_absent_counterexample :
    (getData "u" "t0" (.parsed exEmptyRaw)).1.series = none ∧
    (getData "u" "t0" (.parsed exEmptyRaw)).1 = exEmptyRaw := by
  exact ⟨rfl, rfl⟩

end NetflixGallery



namespace NetflixGallery

/-! ## Lemmas about the reorder loop -/

/-- Inserting items with pairwise-distinct ids into the JS map keeps the
backing list unchanged. -/
theorem buildMap_go (l : List MediaItem) : ∀ acc : List MediaItem,
    (((acc ++ l).map MediaItem.id).Nodup) →
    l.foldl
      (fun acc m =>
        if acc.any (fun x => x.id == m.id) then
          acc.map (fun x => if x.id == m.id then m else x)
        else acc ++ [m])
      acc = acc ++ l := by
  induction l with
  | nil => intro acc _; simp
  | cons m ms ih =>
    intro acc h
    have hm : m.id ∉ acc.map MediaItem.id := by
      rw [List.map_append, List.nodup_append] at h
      intro hmem
      exact h.2.2 hmem (by simp)
    have hany : acc.any (fun x => x.id == m.id) = false := by
      rw [List.any_eq_false]
      intro x hx heq0
      exact hm (eq_of_beq heq0 ▸ List.mem_map_of_mem MediaItem.id hx)
    rw [List.foldl_cons, hany]
    simp only [Bool.false_eq_true, if_false]
    have h2 : (((acc ++ [m]) ++ ms).map MediaItem.id).Nodup := by
      rw [← List.append_cons]
      exact h
    rw [ih (acc ++ [m]) h2, ← List.append_cons]

/-- With pairwise-distinct media ids, the JS map built by the reorder
handler is the media list itself. -/
theorem buildMap_self {media : List MediaItem}
    (h : (media.map MediaItem.id).Nodup) : buildMap media = media := by
  have := buildMap_go media [] (by simpa using h)
  simpa [buildMap] using this

/-- Finding an entry in a distinct-id list and deleting its key is, up to
permutation, moving that entry to the front. -/
theorem find_filter_perm : ∀ (rem : List MediaItem) (i : String) (m : MediaItem),
    ((rem.map MediaItem.id).Nodup) →
    rem.find? (fun x => x.id == i) = some m →
    rem.Perm (m :: rem.filter (fun x => !(x.id == i))) := by
  intro rem
  induction rem with
  | nil => intro i m _ hfind; simp at hfind
  | cons x xs ih =>
    intro i m hnd hfind
    have hnd2 : (MediaItem.id x :: xs.map MediaItem.id).Nodup := by simpa using hnd
    have hxnotin := (List.nodup_cons.mp hnd2).1
    have hnd' := (List.nodup_cons.mp hnd2).2
    by_cases hx : (x.id == i) = true
    · have hfx : (x :: xs).find? (fun y => y.id == i) = some x :=
        List.find?_cons_of_pos xs (show ((fun y => y.id == i) x) = true from hx)
      rw [hfx] at hfind
      injection hfind with hm
      subst hm
      have hxi : x.id = i := by simpa using hx
      have hxs : xs.filter (fun y => !(y.id == i)) = xs := by
        rw [List.filter_eq_self]
        intro y hy
        rw [Bool.not_eq_true', beq_eq_false_iff_ne]
        intro heq
        have hmem : y.id ∈ xs.map MediaItem.id := List.mem_map_of_mem MediaItem.id hy
        rw [heq, ← hxi] at hmem
        exact hxnotin hmem
      have hflt : (x :: xs).filter (fun y => !(y.id == i)) = xs := by
        simp [List.filter_cons, hx, hxs]
      rw [hflt]
    · have hfx : (x :: xs).find? (fun y => y.id == i) = xs.find? (fun y => y.id == i) :=
        List.find?_cons_of_neg xs (show ¬ ((fun y => y.id == i) x) = true from hx)
      rw [hfx] at hfind
      have ihp := ih i m hnd' hfind
      have hx' : (x.id == i) = false := by simpa using hx
      have hflt : (x :: xs).filter (fun y => !(y.id == i)) =
          x :: xs.filter (fun y => !(y.id == i)) := by
        simp [List.filter_cons, hx']
      rw [hflt]
      exact (ihp.cons x).trans (List.Perm.swap m x _)

/-- The reorder loop: the picked entries and the leftover map entries are
together a permutation of the map, the leftover is exactly the
originally-ordered entries whose ids were not requested, and every picked
entry has a requested id. -/
theorem pickIds_spec : ∀ (ids : List String) (rem : List MediaItem),
    ((rem.map MediaItem.id).Nodup) →
    ((pickIds ids rem).1 ++ (pickIds ids rem).2).Perm rem ∧
    (pickIds ids rem).2 = rem.filter (fun m => !(ids.contains m.id)) ∧
    (∀ m ∈ (pickIds ids rem).1, ids.contains m.id = true) := by
  intro ids
  induction ids with
  | nil =>
    intro rem _
    refine ⟨by simp [pickIds], ?_, by simp [pickIds]⟩
    exact (List.filter_eq_self.mpr (fun m _ => rfl)).symm
  | cons i is ih =>
    intro rem hnd
    cases hfind : rem.find? (fun m => m.id == i) with
    | none =>
      have hnone := List.find?_eq_none.mp hfind
      have hred : pickIds (i :: is) rem = pickIds is rem := by
        simp [pickIds, hfind]
      obtain ⟨hperm, hrem, hout⟩ := ih rem hnd
      rw [hred]
      refine ⟨hperm, ?_, ?_⟩
      · rw [hrem]
        refine List.filter_congr ?_
        intro m hm
        have hne : (m.id == i) = false := by
          rw [beq_eq_false_iff_ne]
          intro he
          exact hnone m hm (by simp [he])
        simp only [List.contains_cons, hne, Bool.false_or]
      · intro m hm
        have := hout m hm
        simp only [List.contains_cons, this, Bool.or_true]
    | some m =>
      have hmpred0 := List.find?_some hfind
      have hmpred : (m.id == i) = true := hmpred0
      have hnd' : ((rem.filter (fun x => !(x.id == i))).map MediaItem.id).Nodup :=
        hnd.sublist ((List.filter_sublist rem).map MediaItem.id)
      obtain ⟨hperm, hrem, hout⟩ := ih (rem.filter (fun x => !(x.id == i))) hnd'
      have hred : pickIds (i :: is) rem =
          (m :: (pickIds is (rem.filter (fun x => !(x.id == i)))).1,
            (pickIds is (rem.filter (fun x => !(x.id == i)))).2) := by
        simp [pickIds, hfind]
      rw [hred]
      refine ⟨?_, ?_, ?_⟩
      · have h1 := hperm.cons m
        have h2 := (find_filter_perm rem i m hnd hfind).symm
        simpa using h1.trans h2
      · rw [hrem, List.filter_filter]
        refine List.filter_congr ?_
        intro x _
        simp only [List.contains_cons, Bool.not_or, Bool.and_comm]
      · intro m0 hm0
        rcases List.mem_cons.mp hm0 with h | h
        · subst h
          simp only [List.contains_cons, hmpred, Bool.true_or]
        · have := hout m0 h
          simp only [List.contains_cons, this, Bool.or_true]

/-- When the requested ids are exactly a permutation of the (distinct) map
ids, the loop consumes the whole map in request order. -/
theorem pickIds_exact : ∀ (ids : List String) (rem : List MediaItem),
    ((rem.map MediaItem.id).Nodup) →
    ids.Perm (rem.map MediaItem.id) →
    (pickIds ids rem).1.map MediaItem.id = ids ∧ (pickIds ids rem).2 = [] := by
  intro ids
  induction ids with
  | nil =>
    intro rem _ hperm
    have hmap : rem.map MediaItem.id = [] := hperm.symm.eq_nil
    have hrem : rem = [] := List.map_eq_nil_iff.mp hmap
    subst hrem
    exact ⟨rfl, rfl⟩
  | cons i is ih =>
    intro rem hnd hperm
    have hi : i ∈ rem.map MediaItem.id := hperm.mem_iff.mp (by simp)
    obtain ⟨m0, hm0, hid⟩ := List.mem_map.mp hi
    have hsome : (rem.find? (fun x => x.id == i)).isSome := by
      rw [List.find?_isSome]
      exact ⟨m0, hm0, by simp [hid]⟩
    obtain ⟨m, hfind⟩ := Option.isSome_iff_exists.mp hsome
    have hmi0 := List.find?_some hfind
    have hmi : m.id = i := by simpa using hmi0
    have hpf := find_filter_perm rem i m hnd hfind
    have hnd' : ((rem.filter (fun x => !(x.id == i))).map MediaItem.id).Nodup :=
      hnd.sublist ((List.filter_sublist rem).map MediaItem.id)
    have hperm' : is.Perm ((rem.filter (fun x => !(x.id == i))).map MediaItem.id) := by
      have h1 : (rem.map MediaItem.id).Perm
          (i :: (rem.filter (fun x => !(x.id == i))).map MediaItem.id) := by
        have := hpf.map MediaItem.id
        rw [List.map_cons, hmi] at this
        exact this
      exact (hperm.trans h1).cons_inv
    obtain ⟨hout, hrem2⟩ := ih _ hnd' hperm'
    have hred : pickIds (i :: is) rem =
        (m :: (pickIds is (rem.filter (fun x => !(x.id == i)))).1,
          (pickIds is (rem.filter (fun x => !(x.id == i)))).2) := by
      simp [pickIds, hfind]
    rw [hred]
    refine ⟨?_, hrem2⟩
    simp [hout, hmi]

end NetflixGallery

namespace NetflixGallery

/-- Unfolding `mutateSeries` when the series lookup fails. -/
theorem mutateSeries_none (doc : Document) (sid : String)
    (f : Series → Except ApiError (Series × List (String × Bool)))
    (hx : extractFirstCtx (fun s => s.id == sid) doc.series = none) :
    mutateSeries doc sid f = .error .notFound := by
  unfold mutateSeries
  rw [hx]

/-- Unfolding `mutateSeries` when the series lookup succeeds. -/
theorem mutateSeries_some (doc : Document) (sid : String)
    (f : Series → Except ApiError (Series × List (String × Bool)))
    (pre : List Series) (s : Series) (post : List Series)
    (hx : extractFirstCtx (fun t => t.id == sid) doc.series = some (pre, s, post)) :
    mutateSeries doc sid f =
      match f s with
      | .error e => .error e
      | .ok (s2, ds) => .ok (⟨pre ++ s2 :: post⟩, ds) := by
  unfold mutateSeries
  rw [hx]

/-- Unfolding `mutateEpisode` when the index guard fires. -/
theorem mutateEpisode_invalid (s : Series) (idx : JsIndex)
    (f : Episode → Except ApiError (Episode × List (String × Bool)))
    (hg : idxGE idx s.episodes.length = true) :
    mutateEpisode s idx f = .error .invalidIndex := by
  unfold mutateEpisode
  rw [if_pos hg]

/-- Unfolding `mutateEpisode` when the guard passes but the indexing
yields `undefined`: the handler throws. -/
theorem mutateEpisode_undef (s : Series) (idx : JsIndex)
    (f : Episode → Except ApiError (Episode × List (String × Bool)))
    (hg : idxGE idx s.episodes.length = false)
    (hj : jsIndex s.episodes idx = (none : Option Episode)) :
    mutateEpisode s idx f = .error .internalError := by
  unfold mutateEpisode
  rw [if_neg (by simp [hg]), hj]

/-- Unfolding `mutateEpisode` on a valid index. -/
theorem mutateEpisode_ok (s : Series) (idx : JsIndex)
    (f : Episode → Except ApiError (Episode × List (String × Bool))) (ep : Episode)
    (hg : idxGE idx s.episodes.length = false)
    (hj : jsIndex s.episodes idx = some ep) :
    mutateEpisode s idx f =
      match f ep with
      | .error e => .error e
      | .ok (ep2, ds) => .ok ({ s with episodes := jsSetIndex s.episodes idx ep2 }, ds) := by
  unfold mutateEpisode
  rw [if_neg (by simp [hg]), hj]

/-- The reorder handler issues no asset operation: any successful run
carries an empty delete list. -/
theorem reorderRoute_no_asset_ops (doc : Document) (sid : String) (idx : JsIndex)
    (ids : List String) (d : Document) (ds : List (String × Bool))
    (hok : reorderRoute doc sid idx ids = .ok (d, ds)) : ds = [] := by
  unfold reorderRoute at hok
  cases hx : extractFirstCtx (fun t => t.id == sid) doc.series with
  | none =>
    rw [mutateSeries_none doc sid _ hx] at hok
    exact absurd hok (by simp)
  | some r =>
    obtain ⟨pre, s, post⟩ := r
    rw [mutateSeries_some doc sid _ pre s post hx] at hok
    cases hg : idxGE idx s.episodes.length with
    | true =>
      rw [mutateEpisode_invalid s idx _ hg] at hok
      exact absurd hok (by simp)
    | false =>
      cases hj : jsIndex s.episodes idx with
      | none =>
        rw [mutateEpisode_undef s idx _ hg hj] at hok
        exact absurd hok (by simp)
      | some ep =>
        rw [mutateEpisode_ok s idx _ ep hg hj] at hok
        simp only [Except.ok.injEq, Prod.mk.injEq] at hok
        exact hok.2.symm

/-! ## Claim C4 -/

/-- C4: for an episode whose media ids are pairwise distinct (the
data-model uniqueness of `MediaItem.id`), `reorderMedia` returns a
permutation of the original media — same length, same items — in which the
entries picked by the requested ids come first (ids with no matching media
are silently skipped) and every unmentioned item follows in its original
relative order; the reorder route issues no asset operation. -/
theorem reorderMedia_preserves (media : List MediaItem) (ids : List String)
    (h : (media.map MediaItem.id).Nodup) :
    (reorderMedia media ids).Perm media ∧
    (reorderMedia media ids).length = media.length ∧
    reorderMedia media ids =
      (pickIds ids media).1 ++ media.filter (fun m => !(ids.contains m.id)) ∧
    (∀ m ∈ (pickIds ids media).1, ids.contains m.id = true) ∧
    (∀ (doc : Document) (sid : String) (idx : JsIndex) (d : Document)
        (ds : List (String × Bool)),
      reorderRoute doc sid idx ids = .ok (d, ds) → ds = []) := by
  have hb : buildMap media = media := buildMap_self h
  obtain ⟨hperm, hrem, hout⟩ := pickIds_spec ids media h
  have hdef : reorderMedia media ids = (pickIds ids media).1 ++ (pickIds ids media).2 := by
    unfold reorderMedia
    rw [hb]
  refine ⟨?_, ?_, ?_, hout, ?_⟩
  · rw [hdef]; exact hperm
  · rw [hdef]; exact hperm.length_eq
  · rw [hdef, hrem]
  · intro doc sid idx d ds hok
    exact reorderRoute_no_asset_ops doc sid idx ids d ds hok

/-- Witness for C4: three media items, a request list with one unknown id
and one known id, and the resulting order-preserving permutation. -/
theorem reorderMedia_preserves_witness :
    (reorderMedia [mitem "a", mitem "b", mitem "c"] ["c", "z", "a"]).length = 3 ∧
    (reorderMedia [mitem "a", mitem "b", mitem "c"] ["c", "z", "a"]).Perm
      [mitem "a", mitem "b", mitem "c"] := by
  have h := reorderMedia_preserves [mitem "a", mitem "b", mitem "c"] ["c", "z", "a"]
    (by decide)
  exact ⟨h.2.1, h.1⟩

/-! ## Claim C5 -/

/-- C5: when the requested ids are exactly a permutation of the episode's
(pairwise-distinct) media ids, the reordered sequence carries exactly those
ids in exactly the requested order. -/
theorem reorderMedia_permutation (media : List MediaItem) (ids : List String)
    (hnd : (media.map MediaItem.id).Nodup)
    (hperm : ids.Perm (media.map MediaItem.id)) :
    (reorderMedia media ids).map MediaItem.id = ids := by
  have hb : buildMap media = media := buildMap_self hnd
  obtain ⟨hout, hrem⟩ := pickIds_exact ids media hnd hperm
  have hdef : reorderMedia media ids = (pickIds ids media).1 ++ (pickIds ids media).2 := by
    unfold reorderMedia
    rw [hb]
  rw [hdef, hrem, List.append_nil, hout]

/-- Witness for C5: reversing a two-item episode. -/
theorem reorderMedia_permutation_witness :
    (reorderMedia [mitem "a", mitem "b"] ["b", "a"]).map MediaItem.id = ["b", "a"] :=
  reorderMedia_permutation [mitem "a", mitem "b"] ["b", "a"] (by decide) (by decide)

end NetflixGallery


namespace NetflixGallery

/-! ## Lemmas for series deletion -/

/-- The delete-if-resolvable pattern for one nullable reference equals
filtering the reference (when non-null) through `getKeyFromUrl`. -/
theorem refKeys_eq (o : Option String) :
    refKeys o = (match o with | some t => [t] | none => ([] : List String)).filterMap
      getKeyFromUrl := by
  cases o with
  | none => rfl
  | some t =>
    by_cases ht : t = ""
    · subst ht
      simp [refKeys, truthy, getKeyFromUrl, List.filterMap_cons]
    · have htr : truthy (some t) = true := by simp [truthy, ht]
      unfold refKeys
      rw [if_pos htr]
      simp only [Option.getD_some]
      cases hk : getKeyFromUrl t with
      | none => simp [List.filterMap_cons, hk]
      | some k => simp [List.filterMap_cons, hk]

/-- The keys actually deleted by the S3 series-deletion handler are exactly
the reachable asset references of the series that `getKeyFromUrl` resolves
to storage keys, in traversal order. -/
theorem collect_eq_spec (s : Series) :
    collectSeriesKeys s = (specReachableRefs s).filterMap getKeyFromUrl := by
  unfold collectSeriesKeys specReachableRefs
  rw [List.filterMap_append, List.filterMap_flatten, List.map_map]
  congr 1
  · exact refKeys_eq s.thumbnail
  · congr 1
    refine List.map_congr_left ?_
    intro ep _
    simp only [Function.comp_apply]
    rw [List.filterMap_append, List.filterMap_append, refKeys_eq ep.thumbnail,
      refKeys_eq ep.music, List.filterMap_map]
    rfl

/-- Decomposition of a successful first-match extraction: the list splits
around the found element, which satisfies the predicate while everything
before it does not. -/
theorem extractFirstCtx_some {α : Type} (p : α → Bool) :
    ∀ (l pre : List α) (x : α) (post : List α),
    extractFirstCtx p l = some (pre, x, post) →
    l = pre ++ x :: post ∧ p x = true ∧ ∀ y ∈ pre, p y = false := by
  intro l
  induction l with
  | nil => intro pre x post h; simp [extractFirstCtx] at h
  | cons a as ih =>
    intro pre x post h
    by_cases hp : p a = true
    · unfold extractFirstCtx at h
      rw [if_pos hp] at h
      simp only [Option.some.injEq, Prod.mk.injEq] at h
      obtain ⟨h1, h2, h3⟩ := h
      subst h1; subst h2; subst h3
      refine ⟨rfl, hp, ?_⟩
      intro y hy
      simp at hy
    · unfold extractFirstCtx at h
      rw [if_neg hp] at h
      cases hx : extractFirstCtx p as with
      | none => rw [hx] at h; simp at h
      | some r =>
        obtain ⟨pre2, x2, post2⟩ := r
        rw [hx] at h
        simp only [Option.map_some', Option.some.injEq, Prod.mk.injEq] at h
        obtain ⟨h1, h2, h3⟩ := h
        obtain ⟨hl, hpx, hpre⟩ := ih pre2 x2 post2 hx
        subst h1; subst h2; subst h3
        refine ⟨by rw [hl]; rfl, hpx, ?_⟩
        intro y hy
        rcases List.mem_cons.mp hy with hc | hc
        · subst hc
          exact Bool.eq_false_iff.mpr hp
        · exact hpre y hc

/-! ## Claim C1 -/

/-- C1 (amended): in the S3-backed routes, deleting a series present in
the document removes it from `listSeries()` and issues exactly one
asset-delete call for each reachable asset reference that `getKeyFromUrl`
resolves to a storage key (legacy local-path references and unresolvable
urls receive none), and the document result does not depend on the delete
outcomes; the local-disk route variant issues no asset deletes at all —
see the counterexample. -/
theorem deleteSeries_amended (oracle : String → Bool) (doc : Document) (sid : String)
    (pre : List Series) (s : Series) (post : List Series)
    (hx : extractFirstCtx (fun t => t.id == sid) doc.series = some (pre, s, post))
    (hnd : (doc.series.map Series.id).Nodup) :
    doc.series = pre ++ s :: post ∧
    s.id = sid ∧
    deleteSeriesS3Route oracle doc sid =
      .ok (⟨pre ++ post⟩, (collectSeriesKeys s).map (fun k => (k, oracle k))) ∧
    (∀ t ∈ listSeries ⟨pre ++ post⟩, t.id ≠ sid) ∧
    collectSeriesKeys s = (specReachableRefs s).filterMap getKeyFromUrl := by
  obtain ⟨hl, hps, hpre⟩ := extractFirstCtx_some (fun t => t.id == sid) doc.series pre s post hx
  have hsid : s.id = sid := by simpa using hps
  refine ⟨hl, hsid, ?_, ?_, collect_eq_spec s⟩
  · unfold deleteSeriesS3Route
    rw [hx]
  · have hmap : ((pre ++ s :: post).map Series.id).Nodup := hl ▸ hnd
    rw [List.map_append, List.map_cons] at hmap
    have hnotin : s.id ∉ post.map Series.id :=
      (List.nodup_cons.mp (List.nodup_append.mp hmap).2.1).1
    intro t ht hid
    rcases List.mem_append.mp ht with hc | hc
    · have := hpre t hc
      rw [beq_eq_false_iff_ne] at this
      exact this hid
    · apply hnotin
      have hmem : t.id ∈ post.map Series.id := List.mem_map_of_mem Series.id hc
      rw [hid, ← hsid] at hmem
      exact hmem

/-- Witness for C1 at a concrete document: `exDocS3` holds one series with
four reachable references of which three resolve to S3 keys; deleting it
empties the document and issues exactly those three deletes. -/
theorem deleteSeries_amended_witness :
    deleteSeriesS3Route (fun _ => true) exDocS3 "s1" =
      .ok (⟨[]⟩, (collectSeriesKeys exS3Series).map (fun k => (k, true))) ∧
    (∀ t ∈ listSeries ⟨[]⟩, t.id ≠ "s1") ∧
    collectSeriesKeys exS3Series = (specReachableRefs exS3Series).filterMap getKeyFromUrl := by
  have h := deleteSeries_amended (fun _ => true) exDocS3 "s1" [] exS3Series []
    (by decide) (by decide)
  exact ⟨h.2.2.1, h.2.2.2.1, h.2.2.2.2⟩

/-- Counterexample to C1 as stated: deleting `exLocalThumbSeries` — whose
single reachable asset reference is a legacy local path — via the S3 route
issues zero asset-delete calls, not one; and the local-disk route deletes
`exS3Series` (four reachable references) while issuing zero calls. -/
theorem deleteSeries_counterexample :
    deleteSeriesS3Route (fun _ => true) exDocLocalThumb "s1" = .ok (⟨[]⟩, []) ∧
    (specReachableRefs exLocalThumbSeries).length = 1 ∧
    deleteSeriesLocalRoute exDocS3 "s1" = .ok (⟨[]⟩, []) ∧
    (specReachableRefs exS3Series).length = 4 := by
  exact ⟨rfl, rfl, rfl, rfl⟩

end NetflixGallery

namespace NetflixGallery

/-! ## Claim C9 -/

/-- C9 (amended): for every index-taking handler (episode thumbnail
upload, media upload, music upload, music delete, media delete, media
reorder), an episode index `k` with `k ≥ episodes.length` fails with the
400 invalid-index response, but a negative or non-numeric index passes the
`>=` guard, indexes `undefined`, and fails with an uncaught TypeError (a
500, not the invalid-index 400); a missing series id fails with 404
`NotFound`, as does a missing media id in the media-delete handler.  Every
failing run returns before any document save. -/
theorem index_and_id_validation (oracle : String → Bool) (bucket region : String)
    (doc : Document) (sid mediaId fileKey origName : String)
    (ids : List String) (files : List UploadFile) (hfiles : files ≠ []) :
    (∀ idx : JsIndex,
        extractFirstCtx (fun t => t.id == sid) doc.series = none →
        epThumbRoute oracle bucket region doc sid idx fileKey = .error .notFound ∧
        mediaUploadRoute bucket region doc sid idx files = .error .notFound ∧
        musicUploadRoute oracle bucket region doc sid idx fileKey origName =
          .error .notFound ∧
        deleteMusicRoute oracle doc sid idx = .error .notFound ∧
        deleteMediaRoute oracle doc sid idx mediaId = .error .notFound ∧
        reorderRoute doc sid idx ids = .error .notFound) ∧
    (∀ (pre : List Series) (s : Series) (post : List Series) (k : Int),
        extractFirstCtx (fun t => t.id == sid) doc.series = some (pre, s, post) →
        (s.episodes.length : Int) ≤ k →
        epThumbRoute oracle bucket region doc sid (some k) fileKey =
          .error .invalidIndex ∧
        mediaUploadRoute bucket region doc sid (some k) files = .error .invalidIndex ∧
        musicUploadRoute oracle bucket region doc sid (some k) fileKey origName =
          .error .invalidIndex ∧
        deleteMusicRoute oracle doc sid (some k) = .error .invalidIndex ∧
        deleteMediaRoute oracle doc sid (some k) mediaId = .error .invalidIndex ∧
        reorderRoute doc sid (some k) ids = .error .invalidIndex) ∧
    (∀ (pre : List Series) (s : Series) (post : List Series) (idx : JsIndex),
        extractFirstCtx (fun t => t.id == sid) doc.series = some (pre, s, post) →
        (idx = none ∨ ∃ k : Int, idx = some k ∧ k < 0) →
        epThumbRoute oracle bucket region doc sid idx fileKey =
          .error .internalError ∧
        mediaUploadRoute bucket region doc sid idx files = .error .internalError ∧
        musicUploadRoute oracle bucket region doc sid idx fileKey origName =
          .error .internalError ∧
        deleteMusicRoute oracle doc sid idx = .error .internalError ∧
        deleteMediaRoute oracle doc sid idx mediaId = .error .internalError ∧
        reorderRoute doc sid idx ids = .error .internalError) ∧
    (∀ (pre : List Series) (s : Series) (post : List Series) (idx : JsIndex)
        (ep : Episode),
        extractFirstCtx (fun t => t.id == sid) doc.series = some (pre, s, post) →
        idxGE idx s.episodes.length = false →
        jsIndex s.episodes idx = some ep →
        extractFirstCtx (fun m => m.id == mediaId) ep.media = none →
        deleteMediaRoute oracle doc sid idx mediaId = .error .notFound) := by
  have hfe : files.isEmpty = false := by
    cases files with
    | nil => exact absurd rfl hfiles
    | cons a l => rfl
  refine ⟨?_, ?_, ?_, ?_⟩
  · intro idx hx
    refine ⟨?_, ?_, ?_, ?_, ?_, ?_⟩
    · unfold epThumbRoute
      exact mutateSeries_none doc sid _ hx
    · unfold mediaUploadRoute
      rw [if_neg (by simp [hfe])]
      exact mutateSeries_none doc sid _ hx
    · unfold musicUploadRoute
      exact mutateSeries_none doc sid _ hx
    · unfold deleteMusicRoute
      exact mutateSeries_none doc sid _ hx
    · unfold deleteMediaRoute
      exact mutateSeries_none doc sid _ hx
    · unfold reorderRoute
      exact mutateSeries_none doc sid _ hx
  · intro pre s post k hx hk
    have hg : idxGE (some k) s.episodes.length = true := by
      simp only [idxGE, decide_eq_true_eq]
      exact hk
    refine ⟨?_, ?_, ?_, ?_, ?_, ?_⟩
    · unfold epThumbRoute
      rw [mutateSeries_some doc sid _ pre s post hx, mutateEpisode_invalid s _ _ hg]
    · unfold mediaUploadRoute
      rw [if_neg (by simp [hfe]),
        mutateSeries_some doc sid _ pre s post hx, mutateEpisode_invalid s _ _ hg]
    · unfold musicUploadRoute
      rw [mutateSeries_some doc sid _ pre s post hx, mutateEpisode_invalid s _ _ hg]
    · unfold deleteMusicRoute
      rw [mutateSeries_some doc sid _ pre s post hx, mutateEpisode_invalid s _ _ hg]
    · unfold deleteMediaRoute
      rw [mutateSeries_some doc sid _ pre s post hx, mutateEpisode_invalid s _ _ hg]
    · unfold reorderRoute
      rw [mutateSeries_some doc sid _ pre s post hx, mutateEpisode_invalid s _ _ hg]
  · intro pre s post idx hx hbad
    have hg : idxGE idx s.episodes.length = false := by
      rcases hbad with h | ⟨k, hk, hneg⟩
      · subst h; rfl
      · subst hk
        simp only [idxGE, decide_eq_false_iff_not]
        omega
    have hj : jsIndex s.episodes idx = (none : Option Episode) := by
      rcases hbad with h | ⟨k, hk, hneg⟩
      · subst h; rfl
      · subst hk
        simp only [jsIndex]
        rw [if_neg (by omega)]
    refine ⟨?_, ?_, ?_, ?_, ?_, ?_⟩
    · unfold epThumbRoute
      rw [mutateSeries_some doc sid _ pre s post hx, mutateEpisode_undef s _ _ hg hj]
    · unfold mediaUploadRoute
      rw [if_neg (by simp [hfe]),
        mutateSeries_some doc sid _ pre s post hx, mutateEpisode_undef s _ _ hg hj]
    · unfold musicUploadRoute
      rw [mutateSeries_some doc sid _ pre s post hx, mutateEpisode_undef s _ _ hg hj]
    · unfold deleteMusicRoute
      rw [mutateSeries_some doc sid _ pre s post hx, mutateEpisode_undef s _ _ hg hj]
    · unfold deleteMediaRoute
      rw [mutateSeries_some doc sid _ pre s post hx, mutateEpisode_undef s _ _ hg hj]
    · unfold reorderRoute
      rw [mutateSeries_some doc sid _ pre s post hx, mutateEpisode_undef s _ _ hg hj]
  · intro pre s post idx ep hx hg hj hm
    unfold deleteMediaRoute
    rw [mutateSeries_some doc sid _ pre s post hx, mutateEpisode_ok s idx _ ep hg hj]
    simp only [hm]

/-- Witness for C9 at `exDoc9`: an index one past the single episode is
rejected with the invalid-index 400, while a negative index produces the
internal error. -/
theorem index_and_id_validation_witness :
    deleteMusicRoute (fun _ => true) exDoc9 "s1" (some 5) = .error .invalidIndex ∧
    reorderRoute exDoc9 "s1" (some (-1)) [] = .error .internalError := by
  have h := index_and_id_validation (fun _ => true) "b" "r" exDoc9 "s1" "m" "k" "o"
    [] [⟨"i", "k", "o.png"⟩] (List.cons_ne_nil _ _)
  refine ⟨?_, ?_⟩
  · exact (h.2.1 [] exSeries9 [] 5 (by decide) (by decide)).2.2.2.1
  · exact (h.2.2.1 [] exSeries9 [] (some (-1)) (by decide)
      (Or.inr ⟨-1, rfl, by decide⟩)).2.2.2.2.2

/-- Counterexample to C9 as stated: on `exDoc9` the music-delete handler
with index `-1` (and likewise a non-numeric index) fails with the internal
500, not the claimed invalid-index 400. -/
theorem index_validation_counterexample :
    deleteMusicRoute (fun _ => true) exDoc9 "s1" (some (-1)) = .error .internalError ∧
    deleteMusicRoute (fun _ => true) exDoc9 "s1" (some (-1)) ≠ .error .invalidIndex ∧
    deleteMusicRoute (fun _ => true) exDoc9 "s1" none = .error .internalError := by
  refine ⟨rfl, ?_, rfl⟩
  intro h
  have h2 : (Except.error ApiError.internalError :
      Except ApiError (Document × List (String × Bool))) = .error .invalidIndex := h
  cases Except.error.inj h2

end NetflixGallery
